import Mathlib

/-!
Verification development for the issue-synthesis web application
(`start_with_setting_issues`): a React frontend (`frontend/src/App.tsx`)
that turns a requirement document into GitHub issue records via an LLM
backend, lets the user edit and select them, and bulk-creates the
selection against a repository.

The frontend `App.tsx` is embedded directly.  The FastAPI backend
(`main.py`, `auth.py`, `llm_service.py`) is documented (README, design
spec) but its source is not in the repository snapshot; the session
credential and candidate-normalization operations are therefore modelled
from the specification, and each such definition's doc comment says so.
-/

namespace IssueApp

/-- A generated issue record, after the `interface GeneratedIssue` of
`App.tsx`: `{title: string; body: string; labels: string[]; priority?: number}`. -/
structure GeneratedIssue where
  title : String
  body : String
  labels : List String
  priority : Option Int
  deriving Repr, DecidableEq

/-- A repository entry, after `interface Repository` of `App.tsx`
(only the field the bulk committer reads). -/
structure Repository where
  full_name : String
  deriving Repr, DecidableEq

/-! ## Requirement-to-issue synthesis (normalization of model output)

The backend `llm_service.py` is not in the snapshot; these definitions are
modelled from the spec, §4.3 step 4: per-candidate validation that drops a
candidate with an empty or missing title, coerces `labels` to a
deduplicated ordered set of strings discarding non-string entries, keeps
`priority` only when present and inside the fixed range 1..5 (the range the
`App.tsx` priority slider exposes), and defaults `body` to the empty
string. -/

/-- A raw JSON value appearing in a candidate's `labels` array: either a
string or some non-string JSON value.  Modelled from the spec: the exact
JSON type is irrelevant, only string vs non-string matters. -/
inductive RawVal where
  | str (s : String)
  | other
  deriving Repr, DecidableEq

/-- One issue-like candidate as parsed from the model response, before
validation. Modelled from the spec: `title` and `body` may be missing,
`labels` entries may be non-strings, `priority` may be out of range. -/
structure RawCandidate where
  title : Option String
  body : Option String
  labels : List RawVal
  priority : Option Int
  deriving Repr, DecidableEq

/-- Keep string entries, discard the rest.  Modelled from the spec:
"non-string entries discarded". -/
def keepStrings (ls : List RawVal) : List String :=
  ls.filterMap fun v => match v with
    | .str s => some s
    | .other => none

/-- Deduplicate keeping the first occurrence of each string, preserving
order.  Modelled from the spec: "labels coerced to a deduplicated ordered
set of strings". -/
def dedupKeepFirst (ls : List String) : List String :=
  ls.foldl (fun acc l => if l ∈ acc then acc else acc ++ [l]) []

/-- Label normalization: string filtering then order-preserving
first-occurrence deduplication.  Modelled from the spec, §4.3 step 4. -/
def normalizeLabels (ls : List RawVal) : List String :=
  dedupKeepFirst (keepStrings ls)

/-- Priority normalization: an in-range value (1..5) passes through, an
out-of-range or absent value is omitted — never clamped.  Modelled from
the spec: "`priority` coerced to the allowed integer range if present and
in-range, otherwise omitted (not clamped)". -/
def normalizePriority (p : Option Int) : Option Int :=
  match p with
  | some v => if 1 ≤ v ∧ v ≤ 5 then some v else none
  | none => none

/-- Per-candidate validation: `none` means the candidate is dropped
(empty or missing title); otherwise the normalized record.  Modelled from
the spec, §4.3 step 4: "require non-empty `title` (else drop the
candidate, do not abort the batch)"; `body` passed through verbatim,
defaulting to the empty string if absent. -/
def normalizeCandidate (c : RawCandidate) : Option GeneratedIssue :=
  match c.title with
  | some t =>
      if t = "" then none
      else some { title := t, body := c.body.getD "",
                  labels := normalizeLabels c.labels,
                  priority := normalizePriority c.priority }
  | none => none

/-- The synthesis result for a parsed candidate list: each candidate is
validated independently; dropped candidates vanish without aborting the
batch.  Modelled from the spec, §4.3. -/
def synthesizeIssues (cs : List RawCandidate) : List GeneratedIssue :=
  cs.filterMap normalizeCandidate

/-- Whether a candidate has a present, non-empty title (the keep
condition of `normalizeCandidate`). -/
def hasTitle (c : RawCandidate) : Bool :=
  match c.title with
  | some t => t != ""
  | none => false

/-- The record `normalizeCandidate` produces for a kept candidate,
written as a total function for stating order preservation. -/
def keptRecord (c : RawCandidate) : GeneratedIssue :=
  { title := c.title.getD "", body := c.body.getD "",
    labels := normalizeLabels c.labels,
    priority := normalizePriority c.priority }

/-! ## Issue editing (`App.tsx`) -/

/-- `saveEditedIssue` of `App.tsx` lines 247-254: when an edit index is
set, copy the list and overwrite the entry at that index with the edited
issue; when no index is set, do nothing.  The index always comes from
`openEditModal(issue, index)` over an existing entry, so it is in
bounds; `List.set` matches the JavaScript in-bounds array write. -/
def saveEditedIssue (issues : List GeneratedIssue) (editIndex : Option Nat)
    (editing : GeneratedIssue) : List GeneratedIssue :=
  match editIndex with
  | some i => issues.set i editing
  | none => issues

/-- `addLabel` of `App.tsx` lines 256-263: add the trimmed label to the
issue under edit unless it is blank after trimming or already present. -/
def addLabel (editing : GeneratedIssue) (label : String) : GeneratedIssue :=
  if label.trim ≠ "" ∧ label.trim ∉ editing.labels then
    { editing with labels := editing.labels ++ [label.trim] }
  else editing

/-! ## Bulk issue commit (`createSelectedIssues`, `App.tsx` lines 272-334)

Each selected record is paired with the outcome of its creation call:
`Except.ok url` when the tracker responded OK with `html_url = url`,
`Except.error e` when the response was not OK or the transport failed
(the inner `try`/`catch` folds every cause into one failure).  The
per-call promises push into `successfulIssues` / `failedIssues` in the
order the concurrent calls *complete*; this is modelled by evaluating the
push lists on `completed`, a permutation of the dispatched item list.
`Promise.all` itself fulfills with the per-item result objects in input
position order (and never rejects, since each item's handler catches its
own error), which `itemResults` models. -/

/-- The contents of `successfulIssues` after all calls finished, when the
calls complete in the order of `l`: for each success, the returned
`html_url` is pushed. -/
def succeededOf (l : List (GeneratedIssue × Except String String)) : List String :=
  l.filterMap fun p => match p.2 with
    | .ok url => some url
    | .error _ => none

/-- The contents of `failedIssues` after all calls finished, when the
calls complete in the order of `l`: for each failure, the original
`issue.title` is pushed. -/
def failedOf (l : List (GeneratedIssue × Except String String)) : List String :=
  l.filterMap fun p => match p.2 with
    | .ok _ => none
    | .error _ => some p.1.title

/-- The result object each per-item promise fulfills with:
`{ success, issue, result }` on success, `{ success: false, issue, error }`
on failure (the `html_url` field stands for the relevant part of
`result`). -/
structure ItemResult where
  success : Bool
  issue : GeneratedIssue
  htmlUrl : Option String
  deriving Repr, DecidableEq

/-- The per-item result object, from the two `return` statements of the
per-item handler in `createSelectedIssues`. -/
def mkItemResult (p : GeneratedIssue × Except String String) : ItemResult :=
  match p.2 with
  | .ok url => { success := true, issue := p.1, htmlUrl := some url }
  | .error _ => { success := false, issue := p.1, htmlUrl := none }

/-- The value `Promise.all(createPromises)` fulfills with: one result
object per dispatched item, in input position order regardless of
completion order. -/
def itemResults (items : List (GeneratedIssue × Except String String)) : List ItemResult :=
  items.map mkItemResult

/-- The banner `createSelectedIssues` leaves in the `error` state after
the join: a success banner with the two counts when at least one item
succeeded, the all-failed banner otherwise. -/
inductive Banner where
  | success (numSucceeded numFailed : Nat)
  | allFailed
  deriving Repr, DecidableEq

/-- The observable outcome of one `createSelectedIssues` call:
the two push lists, the banner written to the `error` state, and
whether the body ran at all (`ran = false` models the early
`return` guard). -/
structure CommitRun where
  succeeded : List String
  failed : List String
  banner : Option Banner
  ran : Bool
  deriving Repr, DecidableEq

/-- `createSelectedIssues` of `App.tsx` lines 272-334.  `items` is the
selected record list (`selectedIssuesList`) paired with each creation
call's outcome; `completed` is the same multiset of dispatched calls in
completion order.  The guard `!selectedRepo || selectedIssues.size === 0`
returns before dispatching anything; otherwise every call's outcome is
captured independently (the per-item `catch`), `Promise.all` joins, and
the banner reports the two counts.  No exception escapes: every per-item
handler is total, so the function always returns a `CommitRun`. -/
def createSelectedIssues (repo : Option Repository)
    (items completed : List (GeneratedIssue × Except String String)) : CommitRun :=
  if repo.isNone || items.length == 0 then
    { succeeded := [], failed := [], banner := none, ran := false }
  else
    let succ := succeededOf completed
    let fail := failedOf completed
    { succeeded := succ, failed := fail,
      banner := if succ.length > 0 then some (.success succ.length fail.length)
                else some .allFailed,
      ran := true }

/-! ## Session credential (backend `auth.py`)

`auth.py` is not in the snapshot; modelled from the spec, §4.1, and the
README: a signed, self-contained JWT carrying `{identity, delegated
token, issued-at, expiry}` with `ACCESS_TOKEN_EXPIRE_MINUTES = 1440`.
The HMAC signature is abstracted as a recomputable checksum over the
payload and the process-wide key: `verify` recomputes it and compares,
then checks the expiry against the current time. -/

/-- The fixed credential window, from the README:
`ACCESS_TOKEN_EXPIRE_MINUTES = 1440` (24 hours). -/
def ACCESS_TOKEN_EXPIRE_MINUTES : Nat := 1440

/-- Serialized credential payload.  Modelled from the spec: the exact
encoding is irrelevant, only that the signature covers all four fields. -/
def encodePayload (identity token : String) (issuedAt expiry : Nat) : String :=
  identity ++ "|" ++ token ++ "|" ++ toString issuedAt ++ "|" ++ toString expiry

/-- Abstract keyed signature over a payload.  Modelled from the spec:
stands for the JWT HMAC; only its recompute-and-compare use matters. -/
def signPayload (key : Nat) (payload : String) : Nat :=
  key + payload.length

/-- A session credential: payload fields plus signature.  Modelled from
the spec, §3: {identity, delegated access token, issued-at, expiry},
signed, self-contained. -/
structure Credential where
  identity : String
  token : String
  issuedAt : Nat
  expiry : Nat
  sig : Nat
  deriving Repr, DecidableEq

/-- `issue(identity, delegatedToken)` of the Session Manager, taken at
time `now` (minutes): fixed-window expiry, signed payload.  Modelled from
the spec, §4.1. -/
def issueCredential (key : Nat) (identity token : String) (now : Nat) : Credential :=
  { identity := identity, token := token, issuedAt := now,
    expiry := now + ACCESS_TOKEN_EXPIRE_MINUTES,
    sig := signPayload key
      (encodePayload identity token now (now + ACCESS_TOKEN_EXPIRE_MINUTES)) }

/-- The two verification failure classes of the spec, §4.1:
`Invalid` (bad signature/shape) and `Expired` (past window). -/
inductive VerifyError where
  | invalid
  | expired
  deriving Repr, DecidableEq

/-- `verify(credential)` of the Session Manager at time `now`: check the
signature, then the window, and return the carried pair.  Modelled from
the spec, §4.1. -/
def verifyCredential (key : Nat) (c : Credential) (now : Nat) :
    Except VerifyError (String × String) :=
  if c.sig = signPayload key (encodePayload c.identity c.token c.issuedAt c.expiry) then
    if c.expiry < now then .error .expired
    else .ok (c.identity, c.token)
  else .error .invalid

/-! ## Authorization flow initiation (`handleGithubLogin`, `App.tsx`
lines 110-125)

The browser-side effects of `handleGithubLogin`: without a client id it
sets an error message; otherwise it builds the GitHub authorize URL from
the origin, the scope, and a freshly generated random `state`, and
navigates there.  `storedClientValue` stands for everything the client
persists across the navigation (cookies, web storage): the function
writes none of them — the generated `state` exists only inside the URL. -/

/-- What survives on the client across the OAuth redirect, plus the two
fields `handleGithubLogin` writes. -/
structure BrowserState where
  errorMsg : Option String
  location : String
  storedClientValue : Option String
  deriving Repr, DecidableEq

/-- The authorize URL up to (and excluding) the `state` value, as built
by the template literal in `handleGithubLogin` with
`redirectUri = origin + "/api/auth/callback"` and
`scope = "user:email repo"`. -/
def authUrlBase (cid origin : String) : String :=
  "https://github.com/login/oauth/authorize?client_id=" ++ cid ++
    "&redirect_uri=" ++ (origin ++ "/api/auth/callback") ++
    "&scope=" ++ "user:email repo" ++ "&state="

/-- `handleGithubLogin` of `App.tsx` lines 110-125: `randState` is the
value of `Math.random().toString(36).substring(7)`.  The function either
sets the missing-client-id error or navigates to the authorize URL; it
persists nothing (in particular not `randState`, a local constant
discarded on navigation). -/
def handleGithubLogin (clientId : Option String) (origin randState : String)
    (b : BrowserState) : BrowserState :=
  match clientId with
  | none => { b with errorMsg := some "GitHub Client IDが設定されていません" }
  | some cid => { b with location := authUrlBase cid origin ++ randState }

/-! ## Concrete fixtures used by the scenario theorems and witnesses -/

/-- A minimal generated issue with only a title, for concrete scenarios. -/
def demoIssue (t : String) : GeneratedIssue :=
  { title := t, body := "", labels := [], priority := none }

/-- Five selected records where (1-indexed) positions 2 and 4 fail and
positions 1, 3, 5 succeed with references U1, U3, U5 — the spec's bulk
commit scenario. -/
def demoItems5 : List (GeneratedIssue × Except String String) :=
  [(demoIssue "T1", .ok "U1"), (demoIssue "T2", .error "E2"),
   (demoIssue "T3", .ok "U3"), (demoIssue "T4", .error "E4"),
   (demoIssue "T5", .ok "U5")]

/-- Two selected records that both succeed, for the completion-order
counterexample. -/
def demoItems2 : List (GeneratedIssue × Except String String) :=
  [(demoIssue "A", .ok "U1"), (demoIssue "B", .ok "U2")]

/-! ## Helper lemmas -/

/-- First-occurrence deduplication keeps the accumulator duplicate-free. -/
theorem dedup_foldl_nodup (ls : List String) :
    ∀ acc : List String, acc.Nodup →
      (ls.foldl (fun acc l => if l ∈ acc then acc else acc ++ [l]) acc).Nodup := by
  induction ls with
  | nil => intro acc h; simpa using h
  | cons x xs ih =>
      intro acc h
      simp only [List.foldl_cons]
      by_cases hx : x ∈ acc
      · simpa [hx] using ih acc h
      · have hn : (acc ++ [x]).Nodup := by simp [List.nodup_append, h, hx]
        simpa [hx] using ih _ hn

/-! ## Claim theorems -/

/-- Claim C2: for every (identity, token) pair, verifying the credential
produced by `issue(identity, token)` succeeds and returns exactly the same
(identity, token) pair unchanged. -/
theorem verify_issue_roundtrip (key : Nat) (identity token : String) (now : Nat) :
    verifyCredential key (issueCredential key identity token now) now =
      .ok (identity, token) := by
  have hexp : ¬ (now + ACCESS_TOKEN_EXPIRE_MINUTES < now) := by omega
  simp [verifyCredential, issueCredential, hexp]

/-- Claim C3: a credential whose expiry has passed fails `verify` with the
`Expired` error class, and no credential whose expiry has passed — well
signed or not — ever verifies successfully. -/
theorem expired_credential_never_validates :
    (∀ (key : Nat) (identity token : String) (issuedAt now : Nat),
        (issueCredential key identity token issuedAt).expiry < now →
        verifyCredential key (issueCredential key identity token issuedAt) now =
          .error .expired) ∧
    (∀ (key : Nat) (c : Credential) (now : Nat), c.expiry < now →
        ∀ pair : String × String, verifyCredential key c now ≠ .ok pair) := by
  constructor
  · intro key identity token issuedAt now h
    simp only [issueCredential] at h ⊢
    simp [verifyCredential, h]
  · intro key c now h pair
    unfold verifyCredential
    split
    · simp [h]
    · simp

/-- Witness for C3 at a concrete credential and time. -/
theorem expired_credential_never_validates_witness :
    verifyCredential 0 (issueCredential 0 "alice" "tok" 0) 2000 =
      .error .expired ∧
    verifyCredential 0 (issueCredential 0 "alice" "tok" 0) 2000 ≠
      .ok ("alice", "tok") :=
  ⟨expired_credential_never_validates.1 0 "alice" "tok" 0 2000 (by decide),
   expired_credential_never_validates.2 0 (issueCredential 0 "alice" "tok" 0) 2000
     (by decide) ("alice", "tok")⟩

/-- Claim C5: committing an empty selection is a no-op returning the empty
aggregate — zero succeeded, zero failed, no banner written, nothing run —
for any repository value and any purported completion sequence. -/
theorem empty_selection_commit_noop (repo : Option Repository)
    (completed : List (GeneratedIssue × Except String String)) :
    createSelectedIssues repo [] completed =
      { succeeded := [], failed := [], banner := none, ran := false } := by
  simp [createSelectedIssues]

/-- Claim C7: a present priority outside the range 1..5 (such as 7)
normalizes by omission, never by clamping; an in-range priority (such as
3) passes through unchanged; and a normalized priority is never an
out-of-range value. -/
theorem priority_out_of_range_omitted :
    normalizePriority (some 7) = none ∧
    normalizePriority (some 3) = some 3 ∧
    (∀ v : Int, (v < 1 ∨ 5 < v) → normalizePriority (some v) = none) ∧
    (∀ (p : Option Int) (v : Int), normalizePriority p = some v →
        1 ≤ v ∧ v ≤ 5) := by
  refine ⟨by decide, by decide, ?_, ?_⟩
  · intro v h
    have hc : ¬ (1 ≤ v ∧ v ≤ 5) := by omega
    simp [normalizePriority, hc]
  · intro p v h
    match p with
    | none => simp [normalizePriority] at h
    | some w =>
        simp only [normalizePriority] at h
        by_cases hw : 1 ≤ w ∧ w ≤ 5
        · rw [if_pos hw] at h
          cases h
          exact hw
        · rw [if_neg hw] at h
          cases h

/-- Witness for C7 at the concrete priorities 7 and 3. -/
theorem priority_out_of_range_omitted_witness :
    normalizePriority (some 7) = none ∧ (1 ≤ (3 : Int) ∧ (3 : Int) ≤ 5) :=
  ⟨priority_out_of_range_omitted.2.2.1 7 (by decide),
   priority_out_of_range_omitted.2.2.2 (some 3) 3 (by decide)⟩

/-- Claim C9 (supporting theorem): `handleGithubLogin` never persists the
anti-forgery state it generates — the client's stored value is unchanged
in every branch — while the state is embedded in the authorize URL sent
to the provider.  Consequently no later callback can compare the returned
state against "the one issued": no copy of it survives anywhere. -/
theorem login_discards_issued_state (clientId : Option String)
    (origin randState : String) (b : BrowserState) :
    (handleGithubLogin clientId origin randState b).storedClientValue =
      b.storedClientValue ∧
    ∀ cid : String, (handleGithubLogin (some cid) origin randState b).location =
      authUrlBase cid origin ++ randState := by
  constructor
  · cases clientId <;> rfl
  · intro cid; rfl

/-- Claim C10: saving an edited issue replaces only the record at the edit
index — that entry becomes the edited record, every other index is
unchanged, the length is unchanged — and with no edit index set the list
is entirely unchanged. -/
theorem save_edited_issue_frame (issues : List GeneratedIssue)
    (editing : GeneratedIssue) :
    (∀ i : Nat, i < issues.length →
      (saveEditedIssue issues (some i) editing).length = issues.length ∧
      (saveEditedIssue issues (some i) editing)[i]? = some editing ∧
      ∀ j : Nat, j ≠ i →
        (saveEditedIssue issues (some i) editing)[j]? = issues[j]?) ∧
    saveEditedIssue issues none editing = issues := by
  refine ⟨fun i hi => ⟨?_, ?_, ?_⟩, rfl⟩
  · simp [saveEditedIssue]
  · simp [saveEditedIssue, List.getElem?_set_eq_of_lt editing hi]
  · intro j hj
    simp [saveEditedIssue, List.getElem?_set_ne (fun hh => hj hh.symm)]

/-- Witness for C10 on a two-element list, editing index 0 and reading
back index 1. -/
theorem save_edited_issue_frame_witness :
    (saveEditedIssue [demoIssue "A", demoIssue "B"] (some 0) (demoIssue "X")).length =
      ([demoIssue "A", demoIssue "B"] : List GeneratedIssue).length ∧
    (saveEditedIssue [demoIssue "A", demoIssue "B"] (some 0) (demoIssue "X"))[0]? =
      some (demoIssue "X") ∧
    (saveEditedIssue [demoIssue "A", demoIssue "B"] (some 0) (demoIssue "X"))[1]? =
      ([demoIssue "A", demoIssue "B"] : List GeneratedIssue)[1]? := by
  have h := (save_edited_issue_frame [demoIssue "A", demoIssue "B"]
    (demoIssue "X")).1 0 (by decide)
  exact ⟨h.1, h.2.1, h.2.2 1 (by decide)⟩

/-- Claim C4: for every parsed candidate list, the synthesis result is
exactly the per-candidate-normalized kept candidates in their original
relative order — a candidate with an empty or missing title is dropped
individually — so it has exactly `countP hasTitle` records. -/
theorem synthesis_keeps_exactly_nonempty_titles (cs : List RawCandidate) :
    synthesizeIssues cs = (cs.filter hasTitle).map keptRecord ∧
    (synthesizeIssues cs).length = cs.countP hasTitle := by
  have heq : ∀ l : List RawCandidate,
      l.filterMap normalizeCandidate = (l.filter hasTitle).map keptRecord := by
    intro l
    induction l with
    | nil => rfl
    | cons c cst ih =>
        rw [List.filterMap_cons, List.filter_cons]
        cases hc : c.title with
        | none =>
            have h1 : normalizeCandidate c = none := by
              simp [normalizeCandidate, hc]
            have h2 : hasTitle c = false := by simp [hasTitle, hc]
            simp [h1, h2, ih]
        | some t =>
            by_cases ht : t = ""
            · have h1 : normalizeCandidate c = none := by
                simp [normalizeCandidate, hc, ht]
              have h2 : hasTitle c = false := by simp [hasTitle, hc, ht]
              simp [h1, h2, ih]
            · have h1 : normalizeCandidate c = some (keptRecord c) := by
                simp [normalizeCandidate, hc, ht, keptRecord]
              have h2 : hasTitle c = true := by simp [hasTitle, hc, ht]
              simp [h1, h2, ih]
  constructor
  · exact heq cs
  · show (List.filterMap normalizeCandidate cs).length = cs.countP hasTitle
    rw [heq cs, List.length_map, List.countP_eq_length_filter]

/-- Claim C6: candidate labels ["bug","bug","feature"] normalize to
["bug","feature"]; every normalized label list is duplicate-free; and
`addLabel` preserves the no-duplicates invariant by refusing a blank or
already-present label. -/
theorem labels_nodup_invariant :
    normalizeLabels [.str "bug", .str "bug", .str "feature"] = ["bug", "feature"] ∧
    (∀ ls : List RawVal, (normalizeLabels ls).Nodup) ∧
    (∀ (editing : GeneratedIssue) (label : String),
      editing.labels.Nodup → (addLabel editing label).labels.Nodup) := by
  refine ⟨by decide, ?_, ?_⟩
  · intro ls
    exact dedup_foldl_nodup (keepStrings ls) [] (by simp)
  · intro editing label h
    unfold addLabel
    split
    · next hcond => simp [List.nodup_append, h, hcond.2]
    · exact h

/-- Witness for C6 at a concrete label list and a concrete edit. -/
theorem labels_nodup_invariant_witness :
    (normalizeLabels [RawVal.str "x"]).Nodup ∧
    (addLabel (demoIssue "A") "x").labels.Nodup :=
  ⟨labels_nodup_invariant.2.1 [RawVal.str "x"],
   labels_nodup_invariant.2.2 (demoIssue "A") "x" (by decide)⟩

/-- Claim C1: in the five-record scenario where (1-indexed) positions 2
and 4 fail and 1, 3, 5 succeed, whatever order the concurrent calls
complete in, the aggregate reports 3 successes carrying exactly the 3
external references, 2 failures carrying exactly the 2 original titles,
and the call completes normally, writing the success banner — one item's
failure never aborts or drops another item's outcome. -/
theorem bulk_commit_independent_outcomes (r : Repository)
    (completed : List (GeneratedIssue × Except String String))
    (h : completed.Perm demoItems5) :
    (createSelectedIssues (some r) demoItems5 completed).succeeded.length = 3 ∧
    (createSelectedIssues (some r) demoItems5 completed).succeeded.Perm
      ["U1", "U3", "U5"] ∧
    (createSelectedIssues (some r) demoItems5 completed).failed.length = 2 ∧
    (createSelectedIssues (some r) demoItems5 completed).failed.Perm ["T2", "T4"] ∧
    (createSelectedIssues (some r) demoItems5 completed).banner =
      some (Banner.success 3 2) ∧
    (createSelectedIssues (some r) demoItems5 completed).ran = true := by
  have hs : (succeededOf completed).Perm (succeededOf demoItems5) := by
    simpa [succeededOf] using h.filterMap fun p => match p.2 with
      | .ok url => some url
      | .error _ => none
  have hf : (failedOf completed).Perm (failedOf demoItems5) := by
    simpa [failedOf] using h.filterMap fun p => match p.2 with
      | .ok _ => none
      | .error _ => some p.1.title
  have hs5 : succeededOf demoItems5 = ["U1", "U3", "U5"] := by decide
  have hf5 : failedOf demoItems5 = ["T2", "T4"] := by decide
  have hsl : (succeededOf completed).length = 3 := by rw [hs.length_eq, hs5]; rfl
  have hfl : (failedOf completed).length = 2 := by rw [hf.length_eq, hf5]; rfl
  have hrun : createSelectedIssues (some r) demoItems5 completed =
      { succeeded := succeededOf completed, failed := failedOf completed,
        banner := some (Banner.success 3 2), ran := true } := by
    simp [createSelectedIssues, demoItems5, hsl, hfl]
  rw [hrun]
  exact ⟨hsl, hs5 ▸ hs, hfl, hf5 ▸ hf, rfl, rfl⟩

/-- Witness for C1 with the calls completing in dispatch order. -/
theorem bulk_commit_independent_outcomes_witness :
    (createSelectedIssues (some ⟨"o/r"⟩) demoItems5 demoItems5).succeeded.length = 3 ∧
    (createSelectedIssues (some ⟨"o/r"⟩) demoItems5 demoItems5).succeeded.Perm
      ["U1", "U3", "U5"] ∧
    (createSelectedIssues (some ⟨"o/r"⟩) demoItems5 demoItems5).failed.length = 2 ∧
    (createSelectedIssues (some ⟨"o/r"⟩) demoItems5 demoItems5).failed.Perm
      ["T2", "T4"] ∧
    (createSelectedIssues (some ⟨"o/r"⟩) demoItems5 demoItems5).banner =
      some (Banner.success 3 2) ∧
    (createSelectedIssues (some ⟨"o/r"⟩) demoItems5 demoItems5).ran = true :=
  bulk_commit_independent_outcomes ⟨"o/r"⟩ demoItems5 (List.Perm.refl _)

/-- Claim C8 counterexample: with two records that both succeed dispatched
in input order but completing in reverse order — a legal completion order,
being a permutation of the dispatched calls — the aggregate's succeeded
references come out as ["U2","U1"], not the input-position-order
["U1","U2"]: the push-built aggregate lists do not preserve input-position
correspondence regardless of completion order. -/
theorem commit_aggregate_completion_order_dependent :
    (demoItems2.reverse).Perm demoItems2 ∧
    (createSelectedIssues (some ⟨"o/r"⟩) demoItems2 demoItems2.reverse).succeeded ≠
      succeededOf demoItems2 := by
  refine ⟨List.reverse_perm demoItems2, ?_⟩
  decide

/-- Claim C8 as amended: the `Promise.all` join is position-indexed — the
per-item result objects line up with input positions — and the aggregate's
succeeded references and failed titles match the input-order lists up to
permutation (same counts, same multisets) for every completion order, and
exactly when the calls complete in input order. -/
theorem commit_aggregate_multiset_correspondence (r : Repository)
    (items completed : List (GeneratedIssue × Except String String))
    (h : completed.Perm items) :
    (createSelectedIssues (some r) items completed).succeeded.Perm
      (succeededOf items) ∧
    (createSelectedIssues (some r) items completed).failed.Perm (failedOf items) ∧
    (createSelectedIssues (some r) items items).succeeded = succeededOf items ∧
    (createSelectedIssues (some r) items items).failed = failedOf items ∧
    ∀ i : Nat, (itemResults items)[i]? = (items[i]?).map mkItemResult := by
  have hs : (succeededOf completed).Perm (succeededOf items) := by
    simpa [succeededOf] using h.filterMap fun p => match p.2 with
      | .ok url => some url
      | .error _ => none
  have hf : (failedOf completed).Perm (failedOf items) := by
    simpa [failedOf] using h.filterMap fun p => match p.2 with
      | .ok _ => none
      | .error _ => some p.1.title
  have hres : ∀ i : Nat, (itemResults items)[i]? = (items[i]?).map mkItemResult := by
    intro i
    simp [itemResults]
  by_cases he : items = []
  · subst he
    have hc : completed = [] := h.eq_nil
    subst hc
    exact ⟨by simp [createSelectedIssues, succeededOf],
           by simp [createSelectedIssues, failedOf],
           by simp [createSelectedIssues, succeededOf],
           by simp [createSelectedIssues, failedOf], hres⟩
  · have hg : (items.length == 0) = false := by
      simpa [List.length_eq_zero] using he
    have h1 : (createSelectedIssues (some r) items completed).succeeded =
        succeededOf completed := by simp [createSelectedIssues, hg]
    have h2 : (createSelectedIssues (some r) items completed).failed =
        failedOf completed := by simp [createSelectedIssues, hg]
    have h3 : (createSelectedIssues (some r) items items).succeeded =
        succeededOf items := by simp [createSelectedIssues, hg]
    have h4 : (createSelectedIssues (some r) items items).failed =
        failedOf items := by simp [createSelectedIssues, hg]
    exact ⟨h1 ▸ hs, h2 ▸ hf, h3, h4, hres⟩

/-- Witness for the amended C8 at the two-record reverse-completion
input. -/
theorem commit_aggregate_multiset_correspondence_witness :
    (createSelectedIssues (some ⟨"o/r"⟩) demoItems2 demoItems2.reverse).succeeded.Perm
      (succeededOf demoItems2) ∧
    (itemResults demoItems2)[0]? = (demoItems2[0]?).map mkItemResult := by
  have h := commit_aggregate_multiset_correspondence ⟨"o/r"⟩ demoItems2
    demoItems2.reverse (List.reverse_perm demoItems2)
  exact ⟨h.1, h.2.2.2.2 0⟩

end IssueApp
